import Mathlib

/-!
Verification development for the divvy-tracking import/aggregation pipeline.

The embedding follows the TypeScript sources:
* the community-area geocoder (`isPointInPolygon`, `findCommunityArea`) from
  the import script;
* the CSV trip ingestion (`importCSV` trip batch loop with its
  `ON CONFLICT (ride_id) DO NOTHING` insert) and the per-file driver `main`;
* the daily aggregation (`aggregateDaily`, two `INSERT ... SELECT ... GROUP BY
  ... ON CONFLICT DO UPDATE` statements);
* the seeder's `getOrCreateStation` / `processTrip` (Prisma-based seeder).

JavaScript numbers are modelled by `JSNum`: `nan`, the two infinities, and a
finite value carried as an exact rational (double rounding is not modelled).
SQL `NULL` is modelled by `Option`.  CSV cells are `Option String`
(`none` = column absent, `some ""` = empty cell); both are falsy in JS.
-/

/-- A JavaScript number: NaN, +Infinity, -Infinity, or a finite value
(modelled as an exact rational). -/
inductive JSNum where
  | nan : JSNum
  | inf : JSNum
  | ninf : JSNum
  | fin : ℚ → JSNum
deriving DecidableEq

/-- JavaScript `a < b` on numbers; any comparison with NaN is false. -/
def jlt : JSNum → JSNum → Bool
  | .fin a, .fin b => a < b
  | .fin _, .inf => true
  | .ninf, .fin _ => true
  | .ninf, .inf => true
  | _, _ => false

/-- JavaScript `a > b` on numbers. -/
def jgt (a b : JSNum) : Bool := jlt b a

/-- JavaScript subtraction: NaN propagates, `inf - inf` is NaN. -/
def jsub : JSNum → JSNum → JSNum
  | .fin a, .fin b => .fin (a - b)
  | .fin _, .inf => .ninf
  | .fin _, .ninf => .inf
  | .inf, .fin _ => .inf
  | .inf, .ninf => .inf
  | .ninf, .fin _ => .ninf
  | .ninf, .inf => .ninf
  | _, _ => .nan

/-- JavaScript multiplication: sign rules for infinities, `0 * inf` is NaN. -/
def jmul : JSNum → JSNum → JSNum
  | .fin a, .fin b => .fin (a * b)
  | .fin a, .inf => if 0 < a then .inf else if a < 0 then .ninf else .nan
  | .fin a, .ninf => if 0 < a then .ninf else if a < 0 then .inf else .nan
  | .inf, .fin b => if 0 < b then .inf else if b < 0 then .ninf else .nan
  | .ninf, .fin b => if 0 < b then .ninf else if b < 0 then .inf else .nan
  | .inf, .inf => .inf
  | .inf, .ninf => .ninf
  | .ninf, .inf => .ninf
  | .ninf, .ninf => .inf
  | _, _ => .nan

/-- JavaScript division: division by zero yields an infinity (NaN for `0/0`),
a finite value divided by an infinity yields 0. -/
def jdiv : JSNum → JSNum → JSNum
  | .fin a, .fin b =>
      if b = 0 then (if a = 0 then .nan else if 0 < a then .inf else .ninf)
      else .fin (a / b)
  | .fin _, .inf => .fin 0
  | .fin _, .ninf => .fin 0
  | .inf, .fin b => if 0 ≤ b then .inf else .ninf
  | .ninf, .fin b => if 0 ≤ b then .ninf else .inf
  | _, _ => .nan

/-- JavaScript addition: NaN propagates, `inf + ninf` is NaN. -/
def jadd : JSNum → JSNum → JSNum
  | .fin a, .fin b => .fin (a + b)
  | .fin _, .inf => .inf
  | .fin _, .ninf => .ninf
  | .inf, .fin _ => .inf
  | .ninf, .fin _ => .ninf
  | .inf, .inf => .inf
  | .ninf, .ninf => .ninf
  | _, _ => .nan

/-- JavaScript truthiness negation `!x` for a number: true exactly for NaN
and 0 (and -0, which ℚ identifies with 0). -/
def jsFalsy : JSNum → Bool
  | .nan => true
  | .fin q => q = 0
  | _ => false

/-- A vertex of a polygon ring as stored in the GeoJSON data: a `[lng, lat]`
pair of finite numbers (JSON cannot carry NaN or infinities). -/
abbrev Vertex := ℚ × ℚ

/-- The body of one iteration of the `isPointInPolygon` loop: the edge from
vertex `pj` (`polygon[j]`) to vertex `pi` (`polygon[i]`) toggles the parity iff
`yi > y !== yj > y && x < ((xj - xi) * (y - yi)) / (yj - yi) + xi`. -/
def edgeCrosses (x y : JSNum) (pi pj : Vertex) : Bool :=
  (jgt (.fin pi.2) y != jgt (.fin pj.2) y) &&
    jlt x (jadd (jdiv (jmul (jsub (.fin pj.1) (.fin pi.1)) (jsub y (.fin pi.2)))
      (jsub (.fin pj.2) (.fin pi.2))) (.fin pi.1))

/-- The index pairs walked by `for (let i = 0, j = polygon.length - 1;
i < polygon.length; j = i++)`: each element paired with its cyclic
predecessor, the first element being paired with the last. -/
def cyclicPairs {α : Type} : List α → List (α × α)
  | [] => []
  | p :: ps => (p :: ps).zip ((p :: ps).getLast (List.cons_ne_nil p ps) :: (p :: ps).dropLast)

/-- `isPointInPolygon(lat, lng, polygon)`: even-odd ray crossing with
`x = lng`, `y = lat`, toggling `inside` on each crossing edge. -/
def isPointInPolygon (lat lng : JSNum) (polygon : List Vertex) : Bool :=
  (cyclicPairs polygon).foldl
    (fun inside pr => if edgeCrosses lng lat pr.1 pr.2 then !inside else inside) false

/-- A community area's geometry: a polygon (list of rings, ring 0 the outer
ring and the rest interior holes) or a multi-polygon (list of polygons, each
a list of rings). -/
inductive Geometry where
  | polygon : List (List Vertex) → Geometry
  | multiPolygon : List (List (List Vertex)) → Geometry
deriving DecidableEq

/-- A loaded community area; the source keeps `area_num_1` as a string and
applies `parseInt` on a hit, modelled here as the parsed integer. -/
structure CommunityArea where
  area_num_1 : Int
  community : String
  geometry : Geometry
deriving DecidableEq

/-- The ring the source actually tests: `coords[0]` for a polygon and
`polygon[0]` for each polygon of a multi-polygon (an empty coordinate array,
which would throw in JS, is modelled as the empty ring). -/
def outerRing (rings : List (List Vertex)) : List Vertex := rings.headD []

/-- The `for (const area of communityAreas)` scan of `findCommunityArea`:
first area whose tested ring contains the point, in load order. -/
def findCommunityAreaLoop (lat lng : JSNum) : List CommunityArea → Option Int × Option String
  | [] => (none, none)
  | a :: rest =>
    match a.geometry with
    | .polygon rings =>
        if isPointInPolygon lat lng (outerRing rings) then
          (some a.area_num_1, some a.community)
        else findCommunityAreaLoop lat lng rest
    | .multiPolygon polys =>
        if polys.any (fun rings => isPointInPolygon lat lng (outerRing rings)) then
          (some a.area_num_1, some a.community)
        else findCommunityAreaLoop lat lng rest

/-- `findCommunityArea(lat, lng)`: the `if (!lat || !lng) return [null, null]`
guard followed by the scan over the loaded areas. -/
def findCommunityArea (areas : List CommunityArea) (lat lng : JSNum) :
    Option Int × Option String :=
  if jsFalsy lat || jsFalsy lng then (none, none)
  else findCommunityAreaLoop lat lng areas

/-- Whether an area's tested outer ring(s) contain the point under the
source's ray test (the scan's per-area condition). -/
def areaContains (lat lng : JSNum) (a : CommunityArea) : Bool :=
  match a.geometry with
  | .polygon rings => isPointInPolygon lat lng (outerRing rings)
  | .multiPolygon polys => polys.any (fun rings => isPointInPolygon lat lng (outerRing rings))

/-- Number of crossing edges counted by the ray test. -/
def crossingCount (lat lng : JSNum) (polygon : List Vertex) : Nat :=
  (cyclicPairs polygon).countP (fun pr => edgeCrosses lng lat pr.1 pr.2)

section ParityLemmas

variable {α : Type}

lemma foldl_toggle (p : α → Bool) (l : List α) (b : Bool) :
    l.foldl (fun acc a => if p a then !acc else acc) b
      = (b != decide (l.countP p % 2 = 1)) := by
  induction l generalizing b with
  | nil => simp
  | cons h t ih =>
      simp only [List.foldl_cons, ih, List.countP_cons]
      by_cases hp : p h
      · have h2 : (t.countP p + 1) % 2 = 1 ↔ ¬ (t.countP p % 2 = 1) := by omega
        by_cases ht : t.countP p % 2 = 1
        · simp [hp, ht, h2.symm, ht]
          cases b <;> simp [ht, h2]
        · cases b <;> simp [hp, ht, h2]
      · simp [hp]

/-- Parity of a count as an xor-fold. -/
lemma countP_parity_foldr (p : α → Bool) (l : List α) :
    decide (l.countP p % 2 = 1) = l.foldr (fun a r => xor (p a) r) false := by
  induction l with
  | nil => simp
  | cons h t ih =>
      simp only [List.countP_cons, List.foldr_cons, ← ih]
      by_cases hp : p h
      · by_cases ht : t.countP p % 2 = 1 <;>
          simp [hp, ht] <;> omega
      · simp [hp]

/-- Xor-fold of a boolean function over a list. -/
def xorFold (f : α → Bool) (l : List α) : Bool :=
  l.foldr (fun a r => xor (f a) r) false

lemma xorFold_nil (f : α → Bool) : xorFold f [] = false := rfl

lemma xorFold_cons (f : α → Bool) (a : α) (l : List α) :
    xorFold f (a :: l) = xor (f a) (xorFold f l) := rfl

lemma countP_parity_xorFold (p : α → Bool) (l : List α) :
    decide (l.countP p % 2 = 1) = xorFold p l :=
  countP_parity_foldr p l

lemma xorFold_append (f : α → Bool) (l1 l2 : List α) :
    xorFold f (l1 ++ l2) = xor (xorFold f l1) (xorFold f l2) := by
  induction l1 with
  | nil => simp [xorFold_nil]
  | cons a t ih =>
      rw [List.cons_append, xorFold_cons, xorFold_cons, ih, Bool.xor_assoc]

lemma xorFold_zip_neq (f : α → Bool) :
    ∀ (l1 l2 : List α), l1.length = l2.length →
      xorFold (fun pr : α × α => f pr.1 != f pr.2) (l1.zip l2)
        = xor (xorFold f l1) (xorFold f l2) := by
  intro l1
  induction l1 with
  | nil =>
      intro l2 h
      cases l2 with
      | nil => rfl
      | cons b t2 => simp at h
  | cons a t1 ih =>
      intro l2 h
      cases l2 with
      | nil => simp at h
      | cons b t2 =>
          have ht : t1.length = t2.length := by simpa using h
          rw [List.zip_cons_cons, xorFold_cons, xorFold_cons, xorFold_cons, ih t2 ht]
          cases f a <;> cases f b <;>
            cases xorFold f t1 <;> cases xorFold f t2 <;> rfl

lemma xorFold_rotate (f : α → Bool) (l : List α) (b : α) :
    xorFold f (l ++ [b]) = xorFold f (b :: l) := by
  rw [xorFold_append, xorFold_cons, xorFold_cons, xorFold_nil,
    Bool.xor_false, Bool.xor_comm]

/-- The number of cyclically adjacent sign changes of a boolean function is
even: walking a closed ring, `f` flips an even number of times. -/
lemma countP_cyclicPairs_even (f : α → Bool) (l : List α) :
    (cyclicPairs l).countP (fun pr => f pr.1 != f pr.2) % 2 = 0 := by
  cases l with
  | nil => simp [cyclicPairs]
  | cons p ps =>
      have hne : p :: ps ≠ [] := List.cons_ne_nil p ps
      have hlen : (p :: ps).length
          = ((p :: ps).getLast hne :: (p :: ps).dropLast).length := by
        simp [List.length_dropLast]
      have hsplit : (p :: ps).dropLast ++ [(p :: ps).getLast hne] = p :: ps :=
        List.dropLast_append_getLast hne
      have hrot : xorFold f ((p :: ps).getLast hne :: (p :: ps).dropLast)
          = xorFold f (p :: ps) := by
        rw [← xorFold_rotate, hsplit]
      have hpar : decide ((cyclicPairs (p :: ps)).countP
          (fun pr => f pr.1 != f pr.2) % 2 = 1) = false := by
        rw [countP_parity_xorFold, cyclicPairs, xorFold_zip_neq f _ _ hlen, hrot,
          Bool.xor_self]
      have := of_decide_eq_false hpar
      omega

end ParityLemmas

lemma jlt_nan_left (b : JSNum) : jlt .nan b = false := by cases b <;> rfl

lemma jlt_inf_left (b : JSNum) : jlt .inf b = false := by cases b <;> rfl

/-- Whether a JS number is finite. -/
def isFiniteNum : JSNum → Bool
  | .fin _ => true
  | _ => false

/-- With a non-finite `y`, the guard `yi > y !== yj > y` never holds. -/
lemma edgeCrosses_lat_nonfin (x y : JSNum) (pi pj : Vertex)
    (hy : isFiniteNum y = false) : edgeCrosses x y pi pj = false := by
  cases y with
  | nan => simp [edgeCrosses, jgt, jlt]
  | inf => simp [edgeCrosses, jgt, jlt]
  | ninf => simp [edgeCrosses, jgt, jlt]
  | fin q => simp [isFiniteNum] at hy

/-- With `x = -Infinity` and finite `y`, the edge condition degenerates to the
guard alone: the intersection abscissa is finite whenever the guard holds. -/
lemma edgeCrosses_ninf (y : ℚ) (pi pj : Vertex) :
    edgeCrosses .ninf (.fin y) pi pj
      = (jgt (.fin pi.2) (.fin y) != jgt (.fin pj.2) (.fin y)) := by
  by_cases h : pi.2 = pj.2
  · simp [edgeCrosses, jgt, jlt, h]
  · have hd : pj.2 - pi.2 ≠ 0 := sub_ne_zero.mpr (Ne.symm h)
    simp [edgeCrosses, jgt, jlt, jsub, jmul, jdiv, jadd, hd]

/-- A non-finite coordinate is never inside any ring under the ray test. -/
lemma isPointInPolygon_nonfinite (lat lng : JSNum) (ring : List Vertex)
    (h : isFiniteNum lat = false ∨ isFiniteNum lng = false) :
    isPointInPolygon lat lng ring = false := by
  rw [isPointInPolygon, foldl_toggle]
  rcases h with hlat | hlng
  · have hz : (cyclicPairs ring).countP
        (fun pr => edgeCrosses lng lat pr.1 pr.2) = 0 :=
      List.countP_eq_zero.mpr (fun pr _ => by
        rw [edgeCrosses_lat_nonfin lng lat pr.1 pr.2 hlat]; simp)
    simp [hz]
  · cases lng with
    | fin q => simp [isFiniteNum] at hlng
    | nan =>
        have hz : (cyclicPairs ring).countP
            (fun pr => edgeCrosses .nan lat pr.1 pr.2) = 0 :=
          List.countP_eq_zero.mpr (fun pr _ => by
            simp [edgeCrosses, jlt_nan_left])
        simp [hz]
    | inf =>
        have hz : (cyclicPairs ring).countP
            (fun pr => edgeCrosses .inf lat pr.1 pr.2) = 0 :=
          List.countP_eq_zero.mpr (fun pr _ => by
            simp [edgeCrosses, jlt_inf_left])
        simp [hz]
    | ninf =>
        cases lat with
        | fin y =>
            have hc : (cyclicPairs ring).countP
                (fun pr => edgeCrosses .ninf (.fin y) pr.1 pr.2)
                = (cyclicPairs ring).countP
                  (fun pr => jgt (.fin pr.1.2) (.fin y) != jgt (.fin pr.2.2) (.fin y)) :=
              List.countP_congr (fun pr _ => by rw [edgeCrosses_ninf])
            have he := countP_cyclicPairs_even
              (fun v : Vertex => jgt (.fin v.2) (.fin y)) ring
            simp only [hc]
            simp only [show (fun pr : Vertex × Vertex =>
              jgt (.fin pr.1.2) (.fin y) != jgt (.fin pr.2.2) (.fin y))
                = (fun pr : Vertex × Vertex =>
                  (fun v : Vertex => jgt (.fin v.2) (.fin y)) pr.1
                    != (fun v : Vertex => jgt (.fin v.2) (.fin y)) pr.2) from rfl] at *
            have : decide ((cyclicPairs ring).countP
                (fun pr : Vertex × Vertex =>
                  (fun v : Vertex => jgt (.fin v.2) (.fin y)) pr.1
                    != (fun v : Vertex => jgt (.fin v.2) (.fin y)) pr.2) % 2 = 1)
                = false := by
              rw [decide_eq_false_iff_not]
              omega
            rw [this]
            rfl
        | nan =>
            have hz : (cyclicPairs ring).countP
                (fun pr => edgeCrosses .ninf .nan pr.1 pr.2) = 0 :=
              List.countP_eq_zero.mpr (fun pr _ => by
                rw [edgeCrosses_lat_nonfin .ninf .nan pr.1 pr.2 rfl]; simp)
            simp [hz]
        | inf =>
            have hz : (cyclicPairs ring).countP
                (fun pr => edgeCrosses .ninf .inf pr.1 pr.2) = 0 :=
              List.countP_eq_zero.mpr (fun pr _ => by
                rw [edgeCrosses_lat_nonfin .ninf .inf pr.1 pr.2 rfl]; simp)
            simp [hz]
        | ninf =>
            have hz : (cyclicPairs ring).countP
                (fun pr => edgeCrosses .ninf .ninf pr.1 pr.2) = 0 :=
              List.countP_eq_zero.mpr (fun pr _ => by
                rw [edgeCrosses_lat_nonfin .ninf .ninf pr.1 pr.2 rfl]; simp)
            simp [hz]

/-- The area scan returns the first area, in load order, whose tested outer
ring(s) contain the point. -/
lemma findCommunityAreaLoop_eq_find (lat lng : JSNum) (areas : List CommunityArea) :
    findCommunityAreaLoop lat lng areas
      = (match areas.find? (areaContains lat lng) with
          | some a => (some a.area_num_1, some a.community)
          | none => (none, none)) := by
  induction areas with
  | nil => rfl
  | cons a rest ih =>
      cases hg : a.geometry with
      | polygon rings =>
          by_cases hc : isPointInPolygon lat lng (outerRing rings)
          · simp [findCommunityAreaLoop, hg, hc, List.find?, areaContains]
          · simp [findCommunityAreaLoop, hg, hc, List.find?, areaContains, ih]
      | multiPolygon polys =>
          by_cases hc : polys.any (fun rings => isPointInPolygon lat lng (outerRing rings))
          · simp [findCommunityAreaLoop, hg, hc, List.find?, areaContains]
          · simp [findCommunityAreaLoop, hg, hc, List.find?, areaContains, ih]

/-- A concrete test area: the axis-aligned square of half-side 2 around the
origin, vertices as `(lng, lat)` pairs. -/
def sqArea : CommunityArea :=
  ⟨1, "SQ", .polygon [[(-2, -2), (2, -2), (2, 2), (-2, 2)]]⟩

/-- C4 counterexample: the finite query point `lat = 1, lng = 0` lies inside
the square's outer ring (the ray test holds), an area containing it exists and
comes first in load order, yet `findCommunityArea` returns the null pair: the
truthiness guard `!lat || !lng` treats the zero longitude as missing, so the
claim fails for this finite point. -/
theorem c4_counterexample_zero_lng :
    isFiniteNum (JSNum.fin 1) = true ∧ isFiniteNum (JSNum.fin 0) = true ∧
    areaContains (.fin 1) (.fin 0) sqArea = true ∧
    findCommunityArea [sqArea] (.fin 1) (.fin 0) = (none, none) := by
  with_unfolding_all decide

/-- C5 counterexample: the present, finite query point `lat = 0, lng = 1` is
strictly inside the square (the ray test holds), yet `findCommunityArea`
returns the null pair, because `!lat` is true for the number 0; so the null
pair is not returned only for missing/non-finite/uncontained points. -/
theorem c5_counterexample_zero_lat :
    isFiniteNum (JSNum.fin 0) = true ∧ isFiniteNum (JSNum.fin 1) = true ∧
    areaContains (.fin 0) (.fin 1) sqArea = true ∧
    findCommunityArea [sqArea] (.fin 0) (.fin 1) = (none, none) := by
  with_unfolding_all decide

/-- An area with a non-finite query coordinate never tests as containing. -/
lemma areaContains_nonfinite (lat lng : JSNum) (a : CommunityArea)
    (h : isFiniteNum lat = false ∨ isFiniteNum lng = false) :
    areaContains lat lng a = false := by
  cases hg : a.geometry with
  | polygon rings =>
      simp [areaContains, hg, isPointInPolygon_nonfinite lat lng _ h]
  | multiPolygon polys =>
      simp only [areaContains, hg, List.any_eq_false]
      intro rings _
      simp [isPointInPolygon_nonfinite lat lng _ h]

/-- C4: for a query point that passes the truthiness guard, each ring is
tested by the even-odd horizontal-ray-crossing rule (the point is inside iff
the number of crossing edges is odd), only outer rings are tested (holes are
ignored; for a multi-polygon each polygon's outer ring independently, as
`areaContains` does), and the result is the id and name of the first area, in
load order, whose tested ring contains the point.  The guard hypothesis
cannot be dropped: see `c4_counterexample_zero_lng` for a finite point with a
zero coordinate where the scan is never reached. -/
theorem c4_locate_first_match_even_odd (areas : List CommunityArea) (lat lng : JSNum)
    (h : (jsFalsy lat || jsFalsy lng) = false) :
    (∀ ring : List Vertex, isPointInPolygon lat lng ring
        = decide (crossingCount lat lng ring % 2 = 1)) ∧
    findCommunityArea areas lat lng
      = (match areas.find? (areaContains lat lng) with
          | some a => (some a.area_num_1, some a.community)
          | none => (none, none)) := by
  constructor
  · intro ring
    rw [isPointInPolygon, foldl_toggle, crossingCount]
    simp
  · rw [findCommunityArea, h]
    simp [findCommunityAreaLoop_eq_find]

/-- C4 witness: at the square area and the interior point `lat = 1, lng = 1`
the guard hypothesis holds and the theorem applies. -/
theorem c4_locate_first_match_even_odd_witness :
    (jsFalsy (JSNum.fin 1) || jsFalsy (JSNum.fin 1)) = false ∧
    ((∀ ring : List Vertex, isPointInPolygon (.fin 1) (.fin 1) ring
        = decide (crossingCount (.fin 1) (.fin 1) ring % 2 = 1)) ∧
      findCommunityArea [sqArea] (.fin 1) (.fin 1)
        = (match [sqArea].find? (areaContains (.fin 1) (.fin 1)) with
            | some a => (some a.area_num_1, some a.community)
            | none => (none, none))) :=
  ⟨by decide, c4_locate_first_match_even_odd [sqArea] (.fin 1) (.fin 1) (by decide)⟩

/-- C5 (amended): the locator returns the null pair iff the latitude or the
longitude is JS-falsy (NaN, a missing coordinate, or the number 0) or no
loaded area's tested outer ring contains the point; moreover an area never
tests as containing a non-finite coordinate, so non-finite points always get
the null pair. -/
theorem c5_locate_null_pair_iff (areas : List CommunityArea) (lat lng : JSNum) :
    (findCommunityArea areas lat lng = (none, none)
      ↔ (jsFalsy lat || jsFalsy lng
          || areas.all (fun a => ! areaContains lat lng a)) = true) ∧
    ∀ a : CommunityArea, areaContains lat lng a
      = (isFiniteNum lat && isFiniteNum lng && areaContains lat lng a) := by
  constructor
  · by_cases hg : (jsFalsy lat || jsFalsy lng) = true
    · simp [findCommunityArea, hg]
    · have hg' : (jsFalsy lat || jsFalsy lng) = false := by
        simpa using hg
      rw [findCommunityArea, hg']
      have hparts : jsFalsy lat = false ∧ jsFalsy lng = false := by
        constructor <;> [exact (Bool.or_eq_false_iff.mp hg').1;
          exact (Bool.or_eq_false_iff.mp hg').2]
      rw [findCommunityAreaLoop_eq_find]
      cases hf : areas.find? (areaContains lat lng) with
      | some a =>
          have hm : a ∈ areas := List.mem_of_find?_eq_some hf
          have hc : areaContains lat lng a = true := List.find?_some hf
          constructor
          · intro hcontra
            simp at hcontra
          · intro hall
            simp only [hparts.1, hparts.2, Bool.false_or, List.all_eq_true] at hall
            have := hall a hm
            simp [hc] at this
      | none =>
          have hall : ∀ x ∈ areas, ¬ areaContains lat lng x = true :=
            List.find?_eq_none.mp hf
          constructor
          · intro _
            have h2 : areas.all (fun a => ! areaContains lat lng a) = true := by
              simp only [List.all_eq_true]
              intro a ha
              simp [hall a ha]
            simp [h2]
          · intro _
            rfl
  · intro a
    cases hl : isFiniteNum lat with
    | false => simp [areaContains_nonfinite lat lng a (Or.inl hl)]
    | true =>
        cases hn : isFiniteNum lng with
        | false => simp [areaContains_nonfinite lat lng a (Or.inr hn)]
        | true => simp

/-! ## Daily aggregation (`aggregateDaily`) -/

/-- The calendar fields extracted by `EXTRACT(day/month/year FROM ...)`;
time-of-day is not consulted anywhere in the aggregation, so a timestamp is
modelled by its calendar date. -/
structure CalDate where
  year : Int
  month : Int
  day : Int
deriving DecidableEq

/-- A row of the `stations` table, reduced to the columns the aggregation
reads: the serial primary key `id` and the unique text key `station_id`. -/
structure PgStation where
  id : Int
  station_id : String
deriving DecidableEq

/-- A row of the `trips_raw` table (all columns nullable except the
`ride_id` key; coordinates as exact rationals). -/
structure RawTrip where
  ride_id : String
  rideable_type : Option String
  started_at : Option CalDate
  ended_at : Option CalDate
  start_station_name : Option String
  start_station_id : Option String
  end_station_name : Option String
  end_station_id : Option String
  start_lat : Option ℚ
  start_lng : Option ℚ
  end_lat : Option ℚ
  end_lng : Option ℚ
  member_casual : Option String
deriving DecidableEq

/-- The unique key of `station_days`: `(day, month, year, station_id)`. -/
structure SDKey where
  station_id : Int
  day : Int
  month : Int
  year : Int
deriving DecidableEq

/-- The four counters of a `station_days` row.  The `CREATE TABLE` for
`station_days` is not among the sources; unspecified counter columns are
modelled as SQL NULL on insert, matching the `COALESCE(..., 0)` guards the
arrivals upsert applies to the stored values. -/
structure SDRow where
  acoustic_depart : Option Int
  electric_depart : Option Int
  acoustic_arrive : Option Int
  electric_arrive : Option Int
deriving DecidableEq

/-- The `station_days` table as a finite map on its unique key. -/
def StationDays := SDKey → Option SDRow

/-- The empty `station_days` table. -/
def emptyDays : StationDays := fun _ => none

/-- `t.rideable_type IN ('classic_bike', 'docked_bike')` (NULL is not IN). -/
def isAcousticTag (t : Option String) : Bool :=
  t == some "classic_bike" || t == some "docked_bike"

/-- `t.rideable_type = 'electric_bike'` (false for NULL). -/
def isElectricTag (t : Option String) : Bool :=
  t == some "electric_bike"

/-- A bike-type tag recognized by either bucket. -/
def isRecognizedTag (t : Option String) : Bool :=
  isAcousticTag t || isElectricTag t

/-- One row of the join between `trips_raw` and `stations`, carrying the
joined station's serial id, the extracted calendar date and the trip's tag. -/
structure JoinedRow where
  sid : Int
  date : CalDate
  rideable : Option String
deriving DecidableEq

/-- `FROM trips_raw t JOIN stations s ON t.start_station_id = s.station_id
WHERE t.started_at IS NOT NULL` (station_id is unique in `stations`, so the
first matching station row is the only one). -/
def depRows (stations : List PgStation) (trips : List RawTrip) : List JoinedRow :=
  trips.filterMap (fun t =>
    match t.started_at, t.start_station_id with
    | some d, some sid =>
        match stations.find? (fun s => s.station_id == sid) with
        | some s => some ⟨s.id, d, t.rideable_type⟩
        | none => none
    | _, _ => none)

/-- `FROM trips_raw t JOIN stations s ON t.end_station_id = s.station_id
WHERE t.ended_at IS NOT NULL`. -/
def arrRows (stations : List PgStation) (trips : List RawTrip) : List JoinedRow :=
  trips.filterMap (fun t =>
    match t.ended_at, t.end_station_id with
    | some d, some sid =>
        match stations.find? (fun s => s.station_id == sid) with
        | some s => some ⟨s.id, d, t.rideable_type⟩
        | none => none
    | _, _ => none)

/-- The `GROUP BY` key of a joined row. -/
def keyOf (r : JoinedRow) : SDKey := ⟨r.sid, r.date.day, r.date.month, r.date.year⟩

/-- `COUNT(CASE WHEN p THEN 1 END)` within the group of key `k`. -/
def countTag (rows : List JoinedRow) (k : SDKey) (p : Option String → Bool) : Int :=
  (rows.countP (fun r => keyOf r == k && p r.rideable) : Int)

/-- The distinct group keys produced by `GROUP BY`. -/
def groupKeys (rows : List JoinedRow) : List SDKey := (rows.map keyOf).dedup

/-- `ON CONFLICT ... DO UPDATE` of the departures statement: insert with the
two departure counters (arrival columns defaulting to NULL), or add the
excluded counts to the stored values without a COALESCE guard (so a NULL
stored depart counter would stay NULL). -/
def bumpDep (o : Option SDRow) (a e : Int) : Option SDRow :=
  match o with
  | none => some ⟨some a, some e, none, none⟩
  | some r => some { r with
      acoustic_depart := r.acoustic_depart.map (· + a),
      electric_depart := r.electric_depart.map (· + e) }

/-- `ON CONFLICT ... DO UPDATE` of the arrivals statement: insert with the
two arrival counters (departure columns defaulting to NULL), or add the
excluded counts to `COALESCE(stored, 0)`. -/
def bumpArr (o : Option SDRow) (a e : Int) : Option SDRow :=
  match o with
  | none => some ⟨none, none, some a, some e⟩
  | some r => some { r with
      acoustic_arrive := some (r.acoustic_arrive.getD 0 + a),
      electric_arrive := some (r.electric_arrive.getD 0 + e) }

/-- Upsert of one produced group row into `station_days`. -/
def upsert (bump : Option SDRow → Int → Int → Option SDRow)
    (days : StationDays) (k : SDKey) (a e : Int) : StationDays :=
  fun q => if q = k then bump (days k) a e else days q

/-- The departures `INSERT ... SELECT ... GROUP BY ... ON CONFLICT DO UPDATE`
of `aggregateDaily`: one additive upsert per distinct (station, day) group. -/
def departuresPass (stations : List PgStation) (trips : List RawTrip)
    (days : StationDays) : StationDays :=
  (groupKeys (depRows stations trips)).foldl
    (fun d k => upsert bumpDep d k
      (countTag (depRows stations trips) k isAcousticTag)
      (countTag (depRows stations trips) k isElectricTag)) days

/-- The arrivals statement of `aggregateDaily`. -/
def arrivalsPass (stations : List PgStation) (trips : List RawTrip)
    (days : StationDays) : StationDays :=
  (groupKeys (arrRows stations trips)).foldl
    (fun d k => upsert bumpArr d k
      (countTag (arrRows stations trips) k isAcousticTag)
      (countTag (arrRows stations trips) k isElectricTag)) days

/-- `aggregateDaily`: the departures statement, then the arrivals statement. -/
def aggregateDaily (stations : List PgStation) (trips : List RawTrip)
    (days : StationDays) : StationDays :=
  arrivalsPass stations trips (departuresPass stations trips days)

/-- The integer value of one counter of a possibly absent row, a NULL counter
reading as 0 (this is how every downstream query folds the counters). -/
def cVal (o : Option SDRow) (sel : SDRow → Option Int) : Int :=
  (o.bind sel).getD 0

/-- Folding upserts over a duplicate-free key list touches each key once:
the lookup after the fold bumps exactly the keys in the list. -/
lemma foldl_upsert_lookup (bump : Option SDRow → Int → Int → Option SDRow)
    (a e : SDKey → Int) :
    ∀ (L : List SDKey), L.Nodup → ∀ (days : StationDays) (k : SDKey),
      (L.foldl (fun d q => upsert bump d q (a q) (e q)) days) k
        = if k ∈ L then bump (days k) (a k) (e k) else days k := by
  intro L
  induction L with
  | nil => intro _ days k; simp
  | cons h t ih =>
      intro hnd days k
      have hnd' : t.Nodup := (List.nodup_cons.mp hnd).2
      have hht : h ∉ t := (List.nodup_cons.mp hnd).1
      rw [List.foldl_cons, ih hnd']
      by_cases hk : k = h
      · subst hk
        simp [hht, upsert]
      · simp only [upsert, if_neg hk, List.mem_cons]
        by_cases hkt : k ∈ t
        · simp [hkt, hk]
        · simp [hkt, hk]

lemma departuresPass_lookup (stations : List PgStation) (trips : List RawTrip)
    (days : StationDays) (k : SDKey) :
    departuresPass stations trips days k
      = if k ∈ groupKeys (depRows stations trips)
        then bumpDep (days k)
          (countTag (depRows stations trips) k isAcousticTag)
          (countTag (depRows stations trips) k isElectricTag)
        else days k :=
  foldl_upsert_lookup bumpDep _ _ _ (List.nodup_dedup _) days k

lemma arrivalsPass_lookup (stations : List PgStation) (trips : List RawTrip)
    (days : StationDays) (k : SDKey) :
    arrivalsPass stations trips days k
      = if k ∈ groupKeys (arrRows stations trips)
        then bumpArr (days k)
          (countTag (arrRows stations trips) k isAcousticTag)
          (countTag (arrRows stations trips) k isElectricTag)
        else days k :=
  foldl_upsert_lookup bumpArr _ _ _ (List.nodup_dedup _) days k

/-- A key outside the produced groups has empty counts. -/
lemma countTag_eq_zero_of_not_mem (rows : List JoinedRow) (k : SDKey)
    (p : Option String → Bool) (h : k ∉ groupKeys rows) :
    countTag rows k p = 0 := by
  have hz : rows.countP (fun r => keyOf r == k && p r.rideable) = 0 := by
    rw [List.countP_eq_zero]
    intro r hr
    have : keyOf r ≠ k := by
      intro hkk
      exact h (by
        rw [groupKeys, List.mem_dedup]
        exact hkk ▸ List.mem_map_of_mem keyOf hr)
    simp [this]
  simp [countTag, hz]

/-- No tag is in both buckets. -/
lemma tag_not_both (t : Option String) :
    ¬ (isAcousticTag t = true ∧ isElectricTag t = true) := by
  rintro ⟨ha, he⟩
  cases t with
  | none => simp [isAcousticTag] at ha
  | some s =>
      simp [isElectricTag] at he
      simp [isAcousticTag, he] at ha

/-- Counting a disjunction of disjoint tag predicates splits. -/
lemma countTag_or_split (rows : List JoinedRow) (k : SDKey) :
    countTag rows k isRecognizedTag
      = countTag rows k isAcousticTag + countTag rows k isElectricTag := by
  simp only [countTag]
  have : ∀ l : List JoinedRow,
      l.countP (fun r => keyOf r == k && isRecognizedTag r.rideable)
        = l.countP (fun r => keyOf r == k && isAcousticTag r.rideable)
          + l.countP (fun r => keyOf r == k && isElectricTag r.rideable) := by
    intro l
    induction l with
    | nil => simp
    | cons r t ih =>
        simp only [List.countP_cons, ih]
        by_cases hk : (keyOf r == k) = true
        · by_cases ha : isAcousticTag r.rideable = true
          · have he : isElectricTag r.rideable = false := by
              cases hcase : isElectricTag r.rideable
              · rfl
              · exact absurd ⟨ha, hcase⟩ (tag_not_both r.rideable)
            simp [isRecognizedTag, hk, ha, he]
            omega
          · by_cases he : isElectricTag r.rideable = true
            · simp only [Bool.not_eq_true] at ha
              simp [isRecognizedTag, hk, ha, he]
              omega
            · simp only [Bool.not_eq_true] at ha he
              simp [isRecognizedTag, hk, ha, he]
        · simp only [Bool.not_eq_true] at hk
          simp [hk]
  rw [this rows]
  push_cast
  ring

/-- Doubling of one stored row, counter-wise (NULL stays NULL). -/
def doubleRow (r : SDRow) : SDRow :=
  ⟨r.acoustic_depart.map (fun v => v + v), r.electric_depart.map (fun v => v + v),
   r.acoustic_arrive.map (fun v => v + v), r.electric_arrive.map (fun v => v + v)⟩

/-- C1: aggregation groups departures by (start station, start calendar day)
and arrivals by (end station, end calendar day); in every group the acoustic
counter is the number of trips tagged classic_bike or docked_bike, the
electric counter the number tagged electric_bike, and the sum of the two
buckets of one direction is the number of recognized-type trips touching the
station in that direction on that day (any other tag counts in neither). -/
theorem c1_aggregate_bucket_partition (stations : List PgStation)
    (trips : List RawTrip) (k : SDKey) :
    cVal (aggregateDaily stations trips emptyDays k) SDRow.acoustic_depart
        = countTag (depRows stations trips) k isAcousticTag ∧
    cVal (aggregateDaily stations trips emptyDays k) SDRow.electric_depart
        = countTag (depRows stations trips) k isElectricTag ∧
    cVal (aggregateDaily stations trips emptyDays k) SDRow.acoustic_arrive
        = countTag (arrRows stations trips) k isAcousticTag ∧
    cVal (aggregateDaily stations trips emptyDays k) SDRow.electric_arrive
        = countTag (arrRows stations trips) k isElectricTag ∧
    cVal (aggregateDaily stations trips emptyDays k) SDRow.acoustic_depart
        + cVal (aggregateDaily stations trips emptyDays k) SDRow.electric_depart
        = countTag (depRows stations trips) k isRecognizedTag ∧
    cVal (aggregateDaily stations trips emptyDays k) SDRow.acoustic_arrive
        + cVal (aggregateDaily stations trips emptyDays k) SDRow.electric_arrive
        = countTag (arrRows stations trips) k isRecognizedTag := by
  have h1 : aggregateDaily stations trips emptyDays k
      = if k ∈ groupKeys (arrRows stations trips)
        then bumpArr
          (if k ∈ groupKeys (depRows stations trips)
            then bumpDep none
              (countTag (depRows stations trips) k isAcousticTag)
              (countTag (depRows stations trips) k isElectricTag)
            else none)
          (countTag (arrRows stations trips) k isAcousticTag)
          (countTag (arrRows stations trips) k isElectricTag)
        else
          (if k ∈ groupKeys (depRows stations trips)
            then bumpDep none
              (countTag (depRows stations trips) k isAcousticTag)
              (countTag (depRows stations trips) k isElectricTag)
            else none) := by
    rw [aggregateDaily, arrivalsPass_lookup, departuresPass_lookup]
    rfl
  rw [countTag_or_split, countTag_or_split]
  by_cases hkd : k ∈ groupKeys (depRows stations trips) <;>
    by_cases hka : k ∈ groupKeys (arrRows stations trips)
  · simp [h1, hkd, hka, bumpDep, bumpArr, cVal]
  · simp [h1, hkd, hka, bumpDep, bumpArr, cVal,
      countTag_eq_zero_of_not_mem _ _ _ hka]
  · simp [h1, hkd, hka, bumpDep, bumpArr, cVal,
      countTag_eq_zero_of_not_mem _ _ _ hkd]
  · simp [h1, hkd, hka, cVal,
      countTag_eq_zero_of_not_mem _ _ _ hkd,
      countTag_eq_zero_of_not_mem _ _ _ hka]

/-- C2: with no already-aggregated bookkeeping, running `aggregateDaily`
twice over the same raw-trip set from an empty counters table leaves every
affected counter at exactly double its value after one run (and leaves
absent rows absent and NULL counters NULL). -/
theorem c2_aggregate_twice_doubles (stations : List PgStation)
    (trips : List RawTrip) (k : SDKey) :
    aggregateDaily stations trips (aggregateDaily stations trips emptyDays) k
      = Option.map doubleRow (aggregateDaily stations trips emptyDays k) := by
  have hd1 := departuresPass_lookup stations trips emptyDays k
  have ha1 := arrivalsPass_lookup stations trips (departuresPass stations trips emptyDays) k
  have hd2 := departuresPass_lookup stations trips (aggregateDaily stations trips emptyDays) k
  have ha2 := arrivalsPass_lookup stations trips
    (departuresPass stations trips (aggregateDaily stations trips emptyDays)) k
  show arrivalsPass stations trips
      (departuresPass stations trips (aggregateDaily stations trips emptyDays)) k
    = Option.map doubleRow (aggregateDaily stations trips emptyDays k)
  rw [ha2, hd2]
  conv_rhs => rw [aggregateDaily, ha1, hd1]
  conv_lhs => rw [aggregateDaily, ha1, hd1]
  by_cases hkd : k ∈ groupKeys (depRows stations trips) <;>
    by_cases hka : k ∈ groupKeys (arrRows stations trips) <;>
      simp only [hkd, hka, if_true, if_false, emptyDays, bumpDep, bumpArr, doubleRow,
        Option.bind_some, Option.bind_none, Option.getD_none, Option.getD_some,
        Option.map_none, Option.map_some, Option.map] <;>
      simp

/-- C10: a raw trip with a NULL start timestamp contributes to no departure
counter, and one with a NULL end timestamp contributes to no arrival
counter: the corresponding aggregation statement filters it out before any
day/month/year extraction, leaving that whole pass unchanged. -/
theorem c10_null_timestamp_no_contribution (stations : List PgStation)
    (trips : List RawTrip) (t : RawTrip) (days : StationDays) :
    (t.started_at = none →
      departuresPass stations (t :: trips) days = departuresPass stations trips days) ∧
    (t.ended_at = none →
      arrivalsPass stations (t :: trips) days = arrivalsPass stations trips days) := by
  constructor
  · intro h
    have hrows : depRows stations (t :: trips) = depRows stations trips := by
      simp [depRows, List.filterMap_cons, h]
    rw [departuresPass, departuresPass, hrows]
  · intro h
    have hrows : arrRows stations (t :: trips) = arrRows stations trips := by
      simp [arrRows, List.filterMap_cons, h]
    rw [arrivalsPass, arrivalsPass, hrows]

/-- A raw trip with NULL timestamps, NULL tag and NULL endpoints. -/
def nullTrip : RawTrip :=
  ⟨"R0", none, none, none, none, none, none, none, none, none, none, none, none⟩

/-- C10 witness: at the concrete all-NULL trip both hypotheses hold and the
theorem applies. -/
theorem c10_null_timestamp_no_contribution_witness :
    (nullTrip.started_at = none ∧
      departuresPass [] (nullTrip :: []) emptyDays = departuresPass [] [] emptyDays) ∧
    (nullTrip.ended_at = none ∧
      arrivalsPass [] (nullTrip :: []) emptyDays = arrivalsPass [] [] emptyDays) :=
  ⟨⟨rfl, (c10_null_timestamp_no_contribution [] [] nullTrip emptyDays).1 rfl⟩,
   ⟨rfl, (c10_null_timestamp_no_contribution [] [] nullTrip emptyDays).2 rfl⟩⟩

/-! ## CSV trip ingestion (`importCSV` trip batch loop and `main`) -/

/-- A parsed CSV row, covering both known column-naming conventions.  A
string cell is `Option String` (`none` = column absent, `some ""` = empty
cell; both JS-falsy).  Timestamp cells are modelled as already-parsed
calendar dates (`none` = absent or empty) and coordinate cells as parsed
`parseFloat` results (`none` = absent or not a number). -/
structure CSVRow where
  ride_id : Option String
  trip_id : Option String
  rideable_type : Option String
  started_at : Option CalDate
  starttime : Option CalDate
  ended_at : Option CalDate
  stoptime : Option CalDate
  start_station_name : Option String
  from_station_name : Option String
  start_station_id : Option String
  from_station_id : Option String
  end_station_name : Option String
  to_station_name : Option String
  end_station_id : Option String
  to_station_id : Option String
  start_lat : Option ℚ
  start_lng : Option ℚ
  end_lat : Option ℚ
  end_lng : Option ℚ
  member_casual : Option String
  usertype : Option String
deriving DecidableEq

/-- JS truthiness of a string cell: false for a missing cell and for the
empty string, true otherwise. -/
def truthyCell : Option String → Bool
  | none => false
  | some s => s ≠ ""

/-- JS `a || b` on string cells. -/
def jsOrCell (a b : Option String) : Option String :=
  if truthyCell a then a else b

/-- JS `a || "d"`: the default replaces a missing or empty cell. -/
def jsOrDefault (a : Option String) (d : String) : String :=
  match a with
  | some s => if s = "" then d else s
  | none => d

/-- JS `a || b` on already-parsed timestamp cells. -/
def jsOrDate (a b : Option CalDate) : Option CalDate :=
  if a.isSome then a else b

/-- JS `parseFloat(c) || null`: NaN and 0 both map to SQL NULL. -/
def parseFloatOrNull (c : Option ℚ) : Option ℚ :=
  match c with
  | some q => if q = 0 then none else some q
  | none => none

/-- The per-row body of the batch loop: `row.ride_id || row.trip_id` must be
truthy, else the row is skipped by `continue`; otherwise the 13 parameters
of the `trips_raw` insert, with `rideable_type` defaulting to
`'classic_bike'` and `member_casual` to `'casual'`. -/
def normalizeRow (row : CSVRow) : Option RawTrip :=
  if truthyCell (jsOrCell row.ride_id row.trip_id) then
    some ⟨(jsOrCell row.ride_id row.trip_id).getD "",
      some (jsOrDefault row.rideable_type "classic_bike"),
      jsOrDate row.started_at row.starttime,
      jsOrDate row.ended_at row.stoptime,
      jsOrCell row.start_station_name row.from_station_name,
      jsOrCell row.start_station_id row.from_station_id,
      jsOrCell row.end_station_name row.to_station_name,
      jsOrCell row.end_station_id row.to_station_id,
      parseFloatOrNull row.start_lat, parseFloatOrNull row.start_lng,
      parseFloatOrNull row.end_lat, parseFloatOrNull row.end_lng,
      some (jsOrDefault (jsOrCell row.member_casual row.usertype) "casual")⟩
  else none

/-- `INSERT INTO trips_raw ... ON CONFLICT (ride_id) DO NOTHING`: the table
is unchanged when the ride id is already present; the boolean is the
statement's row count (true = actually inserted). -/
def insertTrip (db : List RawTrip) (t : RawTrip) : List RawTrip × Bool :=
  if db.any (fun r => r.ride_id == t.ride_id) then (db, false)
  else (db ++ [t], true)

/-- The row loop of one batch: skipped rows leave the state unchanged,
inserted rows bump `batchTripCount` (duplicate-ignored rows do not, since
their row count is 0). -/
def insertRows (db : List RawTrip) (rows : List CSVRow) : List RawTrip × Nat :=
  rows.foldl (fun acc row =>
    match normalizeRow row with
    | none => acc
    | some t =>
        ((insertTrip acc.1 t).1, acc.2 + (if (insertTrip acc.1 t).2 then 1 else 0)))
    (db, 0)

/-- The fate of one batch transaction: commit, batch-fatal error whose
`ROLLBACK` succeeds, or batch-fatal error whose `ROLLBACK` itself throws. -/
inductive BatchFate where
  | ok
  | fatalRollbackOk
  | fatalRollbackFail
deriving DecidableEq

/-- The batch loop of `importCSV`: each batch acquires one transaction, runs
the row loop and commits once; on a batch-fatal error the transaction is
rolled back (all of the batch's rows are discarded, its count is not added)
and, when the rollback succeeds, the error is only logged and the loop
continues with the next batch; only a rollback that itself fails lets the
error escape (`.error` carries the stored table at that point — the commits
already made). -/
def runBatches (oracle : Nat → BatchFate) :
    Nat → List RawTrip → List (List CSVRow) → Except (List RawTrip) (List RawTrip × Nat)
  | _, db, [] => .ok (db, 0)
  | i, db, b :: bs =>
      match oracle i with
      | .ok =>
          match runBatches oracle (i + 1) (insertRows db b).1 bs with
          | .ok (dbf, m) => .ok (dbf, (insertRows db b).2 + m)
          | .error dbf => .error dbf
      | .fatalRollbackOk => runBatches oracle (i + 1) db bs
      | .fatalRollbackFail => .error db

/-- `data.slice(i, i + batchSize)` chunking, structurally recursive on a
fuel bounding the number of slices (the list length suffices). -/
def chunkFuel : Nat → Nat → List CSVRow → List (List CSVRow)
  | 0, _, _ => []
  | _ + 1, _, [] => []
  | fuel + 1, n, x :: xs => (x :: xs).take n :: chunkFuel fuel n (xs.drop (n - 1))

/-- `data.slice(i, i + batchSize)` chunking of a file's rows. -/
def chunkList (n : Nat) (l : List CSVRow) : List (List CSVRow) :=
  chunkFuel l.length n l

/-- The trip phase of `importCSV` on one file: `batchSize = 1000`. -/
def importTrips (oracle : Nat → BatchFate) (db : List RawTrip)
    (rows : List CSVRow) : Except (List RawTrip) (List RawTrip × Nat) :=
  runBatches oracle 0 db (chunkList 1000 rows)

/-- The per-file loop of `main`: sorted files processed in order, running
totals accumulated; an escaping error aborts the remaining files while the
already committed trips stay stored (`main` has no catch and no global
rollback).  The station pass and the final aggregation are modelled
separately (`getOrCreateStation`, `aggregateDaily`). -/
def mainRun (oracle : Nat → Nat → BatchFate) :
    Nat → List RawTrip → List (List CSVRow) → Except (List RawTrip) (List RawTrip × Nat)
  | _, db, [] => .ok (db, 0)
  | fi, db, f :: fs =>
      match importTrips (oracle fi) db f with
      | .error dbf => .error dbf
      | .ok (db1, n) =>
          match mainRun oracle (fi + 1) db1 fs with
          | .ok (db2, m) => .ok (db2, n + m)
          | .error db2 => .error db2

/-- The stored `trips_raw` table after a run, successful or aborted. -/
def storedOf : Except (List RawTrip) (List RawTrip × Nat) → List RawTrip
  | .ok (db, _) => db
  | .error db => db

/-- Reference semantics of the batch loop when no rollback ever fails:
batches marked fatal by `f` contribute nothing, the others commit in
order. -/
def insertOkBatches (f : Nat → Bool) :
    Nat → List RawTrip → List (List CSVRow) → List RawTrip × Nat
  | _, db, [] => (db, 0)
  | i, db, b :: bs =>
      if f i then insertOkBatches f (i + 1) db bs
      else
        ((insertOkBatches f (i + 1) (insertRows db b).1 bs).1,
          (insertRows db b).2 + (insertOkBatches f (i + 1) (insertRows db b).1 bs).2)

/-- C3: at most one RawTrip per ride id.  With no stored row for the id, the
first insert stores the record and reports success; a second insert with the
same ride id — in the same batch or any later one, since every batch threads
the same stored table through `insertTrip` — is a no-op reported as a
non-error with row count 0, leaves the first stored record unchanged, and
exactly one row with that ride id remains stored. -/
theorem c3_ride_id_unique (db : List RawTrip) (t u : RawTrip)
    (heq : u.ride_id = t.ride_id)
    (h0 : db.countP (fun r => r.ride_id == t.ride_id) = 0) :
    insertTrip db t = (db ++ [t], true) ∧
    insertTrip (db ++ [t]) u = (db ++ [t], false) ∧
    (db ++ [t]).countP (fun r => r.ride_id == t.ride_id) = 1 := by
  have hnone : ∀ r ∈ db, ¬(r.ride_id == t.ride_id) = true :=
    List.countP_eq_zero.mp h0
  have hany : db.any (fun r => r.ride_id == t.ride_id) = false := by
    rw [List.any_eq_false]
    exact hnone
  refine ⟨?_, ?_, ?_⟩
  · simp [insertTrip, hany]
  · have : (db ++ [t]).any (fun r => r.ride_id == u.ride_id) = true := by
      rw [List.any_eq_true]
      exact ⟨t, by simp, by simp [heq]⟩
    simp [insertTrip, this]
  · rw [List.countP_append, h0]
    simp

/-- A trip record with ride id `rid` as normalized from `simpleRow rid`. -/
def simpleTrip (rid : String) : RawTrip :=
  ⟨rid, some "classic_bike", some ⟨2021, 1, 1⟩, some ⟨2021, 1, 1⟩,
   some "A", some "A1", some "B", some "B1", none, none, none, none, some "member"⟩

/-- A second record sharing a ride id with `simpleTrip` but differing in the
rider category, to exhibit that the first record wins. -/
def simpleTripCasual (rid : String) : RawTrip :=
  ⟨rid, some "electric_bike", some ⟨2022, 2, 2⟩, some ⟨2022, 2, 2⟩,
   some "C", some "C1", some "D", some "D1", none, none, none, none, some "casual"⟩

/-- C3 witness: inserting `simpleTrip "R1"` into the empty table and then a
different record with the same ride id keeps exactly the first record. -/
theorem c3_ride_id_unique_witness :
    (simpleTripCasual "R1").ride_id = (simpleTrip "R1").ride_id ∧
    ([] : List RawTrip).countP (fun r => r.ride_id == (simpleTrip "R1").ride_id) = 0 ∧
    (insertTrip [] (simpleTrip "R1") = ([simpleTrip "R1"], true) ∧
      insertTrip [simpleTrip "R1"] (simpleTripCasual "R1") = ([simpleTrip "R1"], false) ∧
      ([simpleTrip "R1"]).countP (fun r => r.ride_id == (simpleTrip "R1").ride_id) = 1) := by
  refine ⟨rfl, rfl, ?_⟩
  have h := c3_ride_id_unique [] (simpleTrip "R1") (simpleTripCasual "R1") rfl rfl
  simpa using h

/-- The row loop only appends: rows already stored are never removed. -/
lemma foldl_insertRows_ext :
    ∀ (rows : List CSVRow) (acc : List RawTrip × Nat),
      ∃ ext, (rows.foldl (fun acc row =>
        match normalizeRow row with
        | none => acc
        | some t =>
            ((insertTrip acc.1 t).1, acc.2 + (if (insertTrip acc.1 t).2 then 1 else 0)))
        acc).1 = acc.1 ++ ext := by
  intro rows
  induction rows with
  | nil => intro acc; exact ⟨[], by simp⟩
  | cons r rest ih =>
      intro acc
      rw [List.foldl_cons]
      cases hn : normalizeRow r with
      | none =>
          simp only [hn]
          simpa using ih acc
      | some t =>
          simp only [hn]
          have hstep : ∃ e0, (insertTrip acc.1 t).1 = acc.1 ++ e0 := by
            rw [insertTrip]
            by_cases hc : acc.1.any (fun r2 => r2.ride_id == t.ride_id)
            · exact ⟨[], by simp [hc]⟩
            · exact ⟨[t], by simp [hc]⟩
          obtain ⟨e0, he0⟩ := hstep
          obtain ⟨ext, hext⟩ :=
            ih ((insertTrip acc.1 t).1, acc.2 + (if (insertTrip acc.1 t).2 then 1 else 0))
          refine ⟨e0 ++ ext, ?_⟩
          rw [hext]
          simp only
          rw [he0, List.append_assoc]

/-- `insertRows` only appends to the stored table. -/
lemma insertRows_ext (db : List RawTrip) (rows : List CSVRow) :
    ∃ ext, (insertRows db rows).1 = db ++ ext :=
  foldl_insertRows_ext rows (db, 0)

/-- Whatever the batch fates, rows stored before the batch loop are retained
in the final table (commit or error): no global rollback. -/
lemma runBatches_retains (oracle : Nat → BatchFate) :
    ∀ (bs : List (List CSVRow)) (i : Nat) (db : List RawTrip),
      ∃ ext, storedOf (runBatches oracle i db bs) = db ++ ext := by
  intro bs
  induction bs with
  | nil => intro i db; exact ⟨[], by simp [runBatches, storedOf]⟩
  | cons b rest ih =>
      intro i db
      cases ho : oracle i with
      | ok =>
          obtain ⟨e1, he1⟩ := insertRows_ext db b
          obtain ⟨e2, he2⟩ := ih (i + 1) (insertRows db b).1
          refine ⟨e1 ++ e2, ?_⟩
          rw [runBatches, ho]
          cases hr : runBatches oracle (i + 1) (insertRows db b).1 rest with
          | ok p =>
              obtain ⟨dbf, m⟩ := p
              simp only [storedOf]
              rw [hr] at he2
              simp only [storedOf] at he2
              rw [he2, he1, List.append_assoc]
          | error dbf =>
              simp only [storedOf]
              rw [hr] at he2
              simp only [storedOf] at he2
              rw [he2, he1, List.append_assoc]
      | fatalRollbackOk =>
          obtain ⟨e, he⟩ := ih (i + 1) db
          exact ⟨e, by rw [runBatches, ho]; exact he⟩
      | fatalRollbackFail =>
          exact ⟨[], by rw [runBatches, ho]; simp [storedOf]⟩

/-- Trips stored before a run of `main`'s file loop are retained whatever
happens to later batches and files. -/
lemma mainRun_retains (oracle : Nat → Nat → BatchFate) :
    ∀ (fs : List (List CSVRow)) (fi : Nat) (db : List RawTrip),
      ∃ ext, storedOf (mainRun oracle fi db fs) = db ++ ext := by
  intro fs
  induction fs with
  | nil => intro fi db; exact ⟨[], by simp [mainRun, storedOf]⟩
  | cons f rest ih =>
      intro fi db
      cases hr : importTrips (oracle fi) db f with
      | error dbf =>
          obtain ⟨e, he⟩ := runBatches_retains (oracle fi) (chunkList 1000 f) 0 db
          rw [importTrips] at hr
          rw [hr] at he
          simp only [storedOf] at he
          exact ⟨e, by rw [mainRun, importTrips] at *; rw [hr]; simpa [storedOf] using he⟩
      | ok p =>
          obtain ⟨db1, n⟩ := p
          have hdb1 : ∃ e1, db1 = db ++ e1 := by
            obtain ⟨e, he⟩ := runBatches_retains (oracle fi) (chunkList 1000 f) 0 db
            rw [importTrips] at hr
            rw [hr] at he
            simp only [storedOf] at he
            exact ⟨e, he⟩
          obtain ⟨e1, he1⟩ := hdb1
          obtain ⟨e2, he2⟩ := ih (fi + 1) db1
          refine ⟨e1 ++ e2, ?_⟩
          rw [mainRun, hr]
          dsimp only
          cases hm : mainRun oracle (fi + 1) db1 rest with
          | ok q =>
              obtain ⟨db2, m⟩ := q
              rw [hm] at he2
              simp only [storedOf] at he2
              dsimp only
              simp only [storedOf]
              rw [he2, he1, List.append_assoc]
          | error db2 =>
              rw [hm] at he2
              simp only [storedOf] at he2
              dsimp only
              simp only [storedOf]
              rw [he2, he1, List.append_assoc]

/-- When no rollback fails, the batch loop always commits what the reference
semantics says: fatal batches contribute nothing, the others commit once. -/
lemma runBatches_okOracle (f : Nat → Bool) :
    ∀ (bs : List (List CSVRow)) (i : Nat) (db : List RawTrip),
      runBatches (fun j => if f j then BatchFate.fatalRollbackOk else .ok) i db bs
        = .ok (insertOkBatches f i db bs) := by
  intro bs
  induction bs with
  | nil => intro i db; rfl
  | cons b rest ih =>
      intro i db
      by_cases hf : f i
      · rw [runBatches]
        simp only [hf, if_true]
        rw [ih, insertOkBatches]
        simp [hf]
      · rw [runBatches]
        simp only [hf, if_false]
        rw [ih, insertOkBatches]
        simp [hf]

/-- When no rollback fails, the whole file loop returns successfully: no
error reaches the orchestrator and no file is abandoned. -/
lemma mainRun_okOracle (f : Nat → Nat → Bool) :
    ∀ (fs : List (List CSVRow)) (fi : Nat) (db : List RawTrip),
      ∃ res, mainRun (fun a b => if f a b then BatchFate.fatalRollbackOk else .ok) fi db fs
        = .ok res := by
  intro fs
  induction fs with
  | nil => intro fi db; exact ⟨(db, 0), rfl⟩
  | cons g rest ih =>
      intro fi db
      have h1 : importTrips
          (fun b => if f fi b then BatchFate.fatalRollbackOk else .ok) db g
          = .ok (insertOkBatches (f fi) 0 db (chunkList 1000 g)) :=
        runBatches_okOracle (f fi) (chunkList 1000 g) 0 db
      obtain ⟨res, hres⟩ := ih (fi + 1) (insertOkBatches (f fi) 0 db (chunkList 1000 g)).1
      refine ⟨(res.1, (insertOkBatches (f fi) 0 db (chunkList 1000 g)).2 + res.2), ?_⟩
      rw [mainRun, h1]
      dsimp only
      rw [hres]

/-- C7 (amended): each fixed-size batch is one transaction committing once;
a batch-fatal error rolls the whole batch back (its rows leave no stored
trace, the reference semantics skips exactly the fatal batches) and prior
commits are always retained with no global rollback — but when the rollback
succeeds the error is logged and swallowed, so the run continues with the
next batch and the remaining files and no error reaches the orchestrator;
only a rollback that itself fails escapes, abandoning the rest with the
already committed table. -/
theorem c7_batch_transaction_semantics (f : Nat → Nat → Bool)
    (oracle : Nat → Nat → BatchFate) (files : List (List CSVRow))
    (db : List RawTrip) (fi : Nat) :
    (∀ (i : Nat) (bs : List (List CSVRow)),
      runBatches (fun j => if f fi j then BatchFate.fatalRollbackOk else .ok) i db bs
        = .ok (insertOkBatches (f fi) i db bs)) ∧
    (∃ res, mainRun (fun a b => if f a b then BatchFate.fatalRollbackOk else .ok)
        fi db files = .ok res) ∧
    (∃ ext, storedOf (mainRun oracle fi db files) = db ++ ext) ∧
    (∀ (i : Nat) (b : List CSVRow) (bs : List (List CSVRow)),
      runBatches (fun _ => BatchFate.fatalRollbackFail) i db (b :: bs)
        = .error db) :=
  ⟨fun i bs => runBatches_okOracle (f fi) bs i db,
   mainRun_okOracle f files fi db,
   mainRun_retains oracle files fi db,
   fun _ _ _ => rfl⟩

/-- A well-formed CSV row under the current column convention. -/
def simpleRow (rid : String) : CSVRow :=
  ⟨some rid, none, some "classic_bike", some ⟨2021, 1, 1⟩, none, some ⟨2021, 1, 1⟩, none,
   some "A", none, some "A1", none, some "B", none, some "B1", none,
   none, none, none, none, some "member", none⟩

/-- C7 counterexample: with one fatal-but-rolled-back batch in the first file
and a healthy second file, the run returns successfully (no error surfaced to
the orchestrator) and the second file's trip is stored (remaining files were
not abandoned); only the failed batch's row is absent.  This contradicts the
claim that the error is surfaced and the remaining files are abandoned. -/
theorem c7_counterexample_swallowed_error :
    mainRun (fun fi _ => if fi = 0 then BatchFate.fatalRollbackOk else .ok) 0 []
        [[simpleRow "RA"], [simpleRow "RB"]]
      = .ok ([simpleTrip "RB"], 1) := by
  rfl

/-! ## The Prisma seeder (`DivvySeeder`) -/

/-- A row of the seeder's CSV input (`DivvyTrip` interface): all cells are
strings; the two timestamps are modelled as their parsed calendar dates
(`new Date(...)` plus `getDate`/`getMonth() + 1`/`getFullYear`). -/
structure DivvyTrip where
  ride_id : String
  rideable_type : String
  started_at : CalDate
  ended_at : CalDate
  start_station_name : String
  start_station_id : String
  end_station_name : String
  end_station_id : String
  start_lat : String
  start_lng : String
  end_lat : String
  end_lng : String
  member_casual : String
deriving DecidableEq

/-- A row of the seeder's `Station` table (name unique, coordinates TEXT,
serial id). -/
structure SeedStation where
  id : Int
  name : String
  latitude : String
  longitude : String
deriving DecidableEq

/-- One in-memory `StationDayData` accumulator record. -/
structure StationDayData where
  stationId : Int
  day : Int
  month : Int
  year : Int
  acousticArrive : Int
  acousticDepart : Int
  electricArrive : Int
  electricDepart : Int
deriving DecidableEq

/-- The seeder's run state: the per-run `stationCache` (name to id, later
entries shadowed by earlier ones as in a JS `Map`), the `Station` table, the
next serial id, the number of `station.create` storage writes issued, and
the in-memory `stationDayStats` map. -/
structure SeedState where
  stationCache : List (String × Int)
  stationDb : List SeedStation
  nextId : Int
  createWrites : Nat
  stationDayStats : List (SDKey × StationDayData)
deriving DecidableEq

/-- `getOrCreateStation`: cache hit returns the cached id without touching
storage; else `findUnique` by name returns the stored id; else one `create`
write inserts a new row; either way the cache is populated. -/
def getOrCreateStation (st : SeedState) (name lat lng : String) : Int × SeedState :=
  match st.stationCache.lookup name with
  | some id => (id, st)
  | none =>
      match st.stationDb.find? (fun s => s.name == name) with
      | some s => (s.id, { st with stationCache := (name, s.id) :: st.stationCache })
      | none =>
          (st.nextId,
           { st with
              stationDb := st.stationDb ++ [⟨st.nextId, name, lat, lng⟩],
              nextId := st.nextId + 1,
              createWrites := st.createWrites + 1,
              stationCache := (name, st.nextId) :: st.stationCache })

/-- One increment of `updateStationDayStats` on an existing record. -/
def bumpStats (rec : StationDayData) (isE isA arrive : Bool) : StationDayData :=
  if arrive then
    { rec with
        electricArrive := rec.electricArrive + (if isE then 1 else 0),
        acousticArrive := rec.acousticArrive + (if isA then 1 else 0) }
  else
    { rec with
        electricDepart := rec.electricDepart + (if isE then 1 else 0),
        acousticDepart := rec.acousticDepart + (if isA then 1 else 0) }

/-- Store a record under a key in the in-memory stats map. -/
def setStats (stats : List (SDKey × StationDayData)) (k : SDKey)
    (v : StationDayData) : List (SDKey × StationDayData) :=
  if (stats.lookup k).isSome then
    stats.map (fun p => if p.1 = k then (k, v) else p)
  else stats ++ [(k, v)]

/-- `updateStationDayStats`: create the zero record on first touch of the
`(stationId, day, month, year)` key, then bump the touched counters. -/
def updateStationDayStats (stats : List (SDKey × StationDayData)) (sid : Int)
    (d : CalDate) (isE isA arrive : Bool) : List (SDKey × StationDayData) :=
  let k : SDKey := ⟨sid, d.day, d.month, d.year⟩
  let rec0 : StationDayData :=
    (stats.lookup k).getD ⟨sid, d.day, d.month, d.year, 0, 0, 0, 0⟩
  setStats stats k (bumpStats rec0 isE isA arrive)

/-- `processTrip`: skip the row when either endpoint station name is falsy;
else resolve both stations (start first) and bump the departure stats of the
start station and the arrival stats of the end station. -/
def processTrip (st : SeedState) (trip : DivvyTrip) : SeedState :=
  if trip.start_station_name = "" || trip.end_station_name = "" then st
  else
    let isElectric := trip.rideable_type == "electric_bike"
    let isAcoustic :=
      trip.rideable_type == "classic_bike" || trip.rideable_type == "docked_bike"
    let r1 := getOrCreateStation st trip.start_station_name trip.start_lat trip.start_lng
    let r2 := getOrCreateStation r1.2 trip.end_station_name trip.end_lat trip.end_lng
    { r2.2 with
        stationDayStats :=
          updateStationDayStats
            (updateStationDayStats r2.2.stationDayStats r1.1 trip.started_at
              isElectric isAcoustic false)
            r2.1 trip.ended_at isElectric isAcoustic true }

/-- C6: resolving the same station name a second time in one run returns the
id of the first resolution and leaves the whole state — in particular the
`Station` table and the number of storage writes — untouched; the first
resolution issues at most one `create` write; and when the table has no
duplicate names, it still has none afterwards, however often the upsert is
repeated across files. -/
theorem c6_station_resolution_idempotent (st : SeedState)
    (n lat1 lng1 lat2 lng2 : String)
    (hnd : (st.stationDb.map SeedStation.name).Nodup) :
    (getOrCreateStation (getOrCreateStation st n lat1 lng1).2 n lat2 lng2).1
        = (getOrCreateStation st n lat1 lng1).1 ∧
    (getOrCreateStation (getOrCreateStation st n lat1 lng1).2 n lat2 lng2).2
        = (getOrCreateStation st n lat1 lng1).2 ∧
    (getOrCreateStation st n lat1 lng1).2.createWrites ≤ st.createWrites + 1 ∧
    ((getOrCreateStation st n lat1 lng1).2.stationDb.map SeedStation.name).Nodup := by
  cases hc : st.stationCache.lookup n with
  | some id =>
      simp only [getOrCreateStation, hc]
      exact ⟨trivial, trivial, Nat.le_succ _, hnd⟩
  | none =>
      cases hf : st.stationDb.find? (fun s => s.name == n) with
      | some s =>
          simp only [getOrCreateStation, hc, hf]
          have hl : List.lookup n ((n, s.id) :: st.stationCache) = some s.id := by
            simp [List.lookup]
          simp only [hl]
          exact ⟨trivial, trivial, Nat.le_succ _, hnd⟩
      | none =>
          simp only [getOrCreateStation, hc, hf]
          have hl : List.lookup n ((n, st.nextId) :: st.stationCache)
              = some st.nextId := by
            simp [List.lookup]
          simp only [hl]
          refine ⟨trivial, trivial, le_refl _, ?_⟩
          have hnotin : n ∉ st.stationDb.map SeedStation.name := by
            intro hmem
            rcases List.mem_map.mp hmem with ⟨s2, hs2, hname⟩
            have := List.find?_eq_none.mp hf s2 hs2
            simp [hname] at this
          simp only [List.map_append, List.map_cons, List.map_nil]
          rw [List.nodup_append]
          exact ⟨hnd, List.nodup_singleton n, by
            intro a ha hb
            simp only [List.mem_singleton] at hb
            subst hb
            exact hnotin ha⟩

/-- C6 witness: resolving the name "S" twice from a fresh run state. -/
theorem c6_station_resolution_idempotent_witness :
    ((⟨[], [], 1, 0, []⟩ : SeedState).stationDb.map SeedStation.name).Nodup ∧
    ((getOrCreateStation (getOrCreateStation ⟨[], [], 1, 0, []⟩ "S" "1" "2").2 "S" "3" "4").1
        = (getOrCreateStation ⟨[], [], 1, 0, []⟩ "S" "1" "2").1 ∧
      (getOrCreateStation (getOrCreateStation ⟨[], [], 1, 0, []⟩ "S" "1" "2").2 "S" "3" "4").2
        = (getOrCreateStation ⟨[], [], 1, 0, []⟩ "S" "1" "2").2 ∧
      (getOrCreateStation ⟨[], [], 1, 0, []⟩ "S" "1" "2").2.createWrites
        ≤ (⟨[], [], 1, 0, []⟩ : SeedState).createWrites + 1 ∧
      ((getOrCreateStation ⟨[], [], 1, 0, []⟩ "S" "1" "2").2.stationDb.map
          SeedStation.name).Nodup) :=
  ⟨List.nodup_nil,
   c6_station_resolution_idempotent ⟨[], [], 1, 0, []⟩ "S" "1" "2" "3" "4" List.nodup_nil⟩

/-- A row with a ride id but with every endpoint identifier and name absent,
in both column conventions. -/
def endpointlessRow : CSVRow :=
  ⟨some "RX", none, some "classic_bike", some ⟨2021, 1, 1⟩, none, some ⟨2021, 1, 1⟩, none,
   none, none, none, none, none, none, none, none,
   none, none, none, none, some "member", none⟩

/-- C8 counterexample: a row whose endpoint identifiers/names are all
missing (in both conventions) but whose ride id is present is not skipped
by the importer: a RawTrip with NULL endpoints is inserted and counted.
This contradicts the claim that rows missing both endpoint
identifiers/names are skipped with no RawTrip stored; the importer's only
validation skip is the ride id. -/
theorem c8_counterexample_endpointless_inserted :
    (jsOrCell endpointlessRow.start_station_id endpointlessRow.from_station_id = none ∧
     jsOrCell endpointlessRow.start_station_name endpointlessRow.from_station_name = none ∧
     jsOrCell endpointlessRow.end_station_id endpointlessRow.to_station_id = none ∧
     jsOrCell endpointlessRow.end_station_name endpointlessRow.to_station_name = none) ∧
    insertRows [] [endpointlessRow]
      = ([⟨"RX", some "classic_bike", some ⟨2021, 1, 1⟩, some ⟨2021, 1, 1⟩,
          none, none, none, none, none, none, none, none, some "member"⟩], 1) := by
  refine ⟨⟨rfl, rfl, rfl, rfl⟩, ?_⟩
  rfl

/-- A row whose ride id cell is the empty string and whose legacy trip id is
absent: `row.ride_id || row.trip_id` is falsy. -/
def noRideRow : CSVRow :=
  ⟨some "", none, some "classic_bike", some ⟨2021, 1, 1⟩, none, some ⟨2021, 1, 1⟩, none,
   some "A", none, some "A1", none, some "B", none, some "B1", none,
   none, none, none, none, some "member", none⟩

/-- C8 (amended): in the importer a row with a falsy ride id is skipped as a
soft failure — no RawTrip is inserted for it and the rest of the batch
continues (in a batch of two rows where one lacks the ride id, exactly one
RawTrip is inserted and the batch still commits); in the seeder a row whose
start or end station name is missing is skipped with no effect at all.  No
per-skip counter is recorded anywhere (the run summary holds only station
and trip totals). -/
theorem c8_missing_ride_id_soft_skip (db : List RawTrip) (row : CSVRow)
    (rest : List CSVRow) (st : SeedState) (trip : DivvyTrip)
    (h1 : truthyCell (jsOrCell row.ride_id row.trip_id) = false)
    (h2 : trip.start_station_name = "" ∨ trip.end_station_name = "") :
    insertRows db (row :: rest) = insertRows db rest ∧
    processTrip st trip = st ∧
    runBatches (fun _ => .ok) 0 []
        (chunkList 1000 [simpleRow "R1", noRideRow]) = .ok ([simpleTrip "R1"], 1) := by
  refine ⟨?_, ?_, rfl⟩
  · have hnorm : normalizeRow row = none := by
      rw [normalizeRow, h1]
      rfl
    rw [insertRows, insertRows, List.foldl_cons, hnorm]
  · rcases h2 with h2 | h2 <;> simp [processTrip, h2]

/-- A seeder row whose start station name is empty. -/
def noNameTrip : DivvyTrip :=
  ⟨"R9", "classic_bike", ⟨2021, 1, 1⟩, ⟨2021, 1, 1⟩, "", "S1", "E", "E1",
   "", "", "", "", "member"⟩

/-- C8 witness: the ride-id-less row and the name-less seeder row satisfy
the hypotheses, and the theorem applies. -/
theorem c8_missing_ride_id_soft_skip_witness :
    truthyCell (jsOrCell noRideRow.ride_id noRideRow.trip_id) = false ∧
    (noNameTrip.start_station_name = "" ∨ noNameTrip.end_station_name = "") ∧
    (insertRows [] (noRideRow :: [simpleRow "R1"]) = insertRows [] [simpleRow "R1"] ∧
      processTrip ⟨[], [], 1, 0, []⟩ noNameTrip = ⟨[], [], 1, 0, []⟩ ∧
      runBatches (fun _ => .ok) 0 []
          (chunkList 1000 [simpleRow "R1", noRideRow]) = .ok ([simpleTrip "R1"], 1)) :=
  ⟨rfl, Or.inl rfl,
   c8_missing_ride_id_soft_skip [] noRideRow [simpleRow "R1"] ⟨[], [], 1, 0, []⟩
     noNameTrip rfl (Or.inl rfl)⟩

/-- C9: a row whose bike-type cell is missing or empty is stored with the
tag `'classic_bike'`, which the aggregation's acoustic bucket recognizes and
the electric bucket does not, so such trips are counted in the acoustic
buckets (its group's acoustic count goes up by one and its electric count is
unchanged) rather than excluded from both. -/
theorem c9_missing_bike_type_defaults_classic (row : CSVRow)
    (h : truthyCell row.rideable_type = false)
    (hrid : truthyCell (jsOrCell row.ride_id row.trip_id) = true) :
    (∃ t, normalizeRow row = some t ∧ t.rideable_type = some "classic_bike" ∧
      isAcousticTag t.rideable_type = true ∧ isElectricTag t.rideable_type = false) ∧
    (∀ (rows : List JoinedRow) (sid : Int) (d : CalDate),
      countTag (⟨sid, d, some "classic_bike"⟩ :: rows)
          ⟨sid, d.day, d.month, d.year⟩ isAcousticTag
        = countTag rows ⟨sid, d.day, d.month, d.year⟩ isAcousticTag + 1 ∧
      countTag (⟨sid, d, some "classic_bike"⟩ :: rows)
          ⟨sid, d.day, d.month, d.year⟩ isElectricTag
        = countTag rows ⟨sid, d.day, d.month, d.year⟩ isElectricTag) := by
  constructor
  · have hdef : jsOrDefault row.rideable_type "classic_bike" = "classic_bike" := by
      cases hr : row.rideable_type with
      | none => rfl
      | some s =>
          rw [hr] at h
          simp only [truthyCell] at h
          simp only [jsOrDefault]
          rw [if_pos (by simpa using h)]
    refine ⟨⟨(jsOrCell row.ride_id row.trip_id).getD "",
      some (jsOrDefault row.rideable_type "classic_bike"),
      jsOrDate row.started_at row.starttime,
      jsOrDate row.ended_at row.stoptime,
      jsOrCell row.start_station_name row.from_station_name,
      jsOrCell row.start_station_id row.from_station_id,
      jsOrCell row.end_station_name row.to_station_name,
      jsOrCell row.end_station_id row.to_station_id,
      parseFloatOrNull row.start_lat, parseFloatOrNull row.start_lng,
      parseFloatOrNull row.end_lat, parseFloatOrNull row.end_lng,
      some (jsOrDefault (jsOrCell row.member_casual row.usertype) "casual")⟩,
      ?_, ?_, ?_, ?_⟩
    · rw [normalizeRow, if_pos hrid]
    · simp [hdef]
    · simp [hdef, isAcousticTag]
    · simp [hdef, isElectricTag]
  · intro rows sid d
    constructor
    · have hkey : keyOf ⟨sid, d, some "classic_bike"⟩ = ⟨sid, d.day, d.month, d.year⟩ := rfl
      simp [countTag, List.countP_cons, hkey, isAcousticTag]
    · have hkey : keyOf ⟨sid, d, some "classic_bike"⟩ = ⟨sid, d.day, d.month, d.year⟩ := rfl
      simp [countTag, List.countP_cons, hkey, isElectricTag]

/-- A row whose bike-type cell is the empty string. -/
def noTypeRow : CSVRow :=
  ⟨some "R2", none, some "", some ⟨2021, 1, 1⟩, none, some ⟨2021, 1, 1⟩, none,
   some "A", none, some "A1", none, some "B", none, some "B1", none,
   none, none, none, none, some "member", none⟩

/-- C9 witness: the empty bike-type row satisfies both hypotheses and the
theorem applies. -/
theorem c9_missing_bike_type_defaults_classic_witness :
    truthyCell noTypeRow.rideable_type = false ∧
    truthyCell (jsOrCell noTypeRow.ride_id noTypeRow.trip_id) = true ∧
    ((∃ t, normalizeRow noTypeRow = some t ∧ t.rideable_type = some "classic_bike" ∧
        isAcousticTag t.rideable_type = true ∧ isElectricTag t.rideable_type = false) ∧
      (∀ (rows : List JoinedRow) (sid : Int) (d : CalDate),
        countTag (⟨sid, d, some "classic_bike"⟩ :: rows)
            ⟨sid, d.day, d.month, d.year⟩ isAcousticTag
          = countTag rows ⟨sid, d.day, d.month, d.year⟩ isAcousticTag + 1 ∧
        countTag (⟨sid, d, some "classic_bike"⟩ :: rows)
            ⟨sid, d.day, d.month, d.year⟩ isElectricTag
          = countTag rows ⟨sid, d.day, d.month, d.year⟩ isElectricTag)) :=
  ⟨rfl, rfl, c9_missing_bike_type_defaults_classic noTypeRow rfl rfl⟩
